import Mathlib

/-!
Verification of the `Modality` bitflags type from `src/lib.rs`
(`jmg049/ModalitiesRs`).

The Rust code declares a `bitflags!` struct `Modality : u32` with the
constants NONE, AUDIO, IMAGE, TEXT, VIDEO, OTHER, ALL, plus
`to_names`/`from_names` conversions, and a PyO3 wrapper `PyModality`
exposing `__or__`, `__and__`, `__contains__`, `names` and `__str__`.

We embed the bit values as `Nat` (the operations `|||`, `&&&` used by
the code can never exceed `u32::MAX` when the operands are in range, so
no wraparound modelling is needed).
-/

deriving instance DecidableEq for Except

namespace Modality

/-- Rust `const NONE = 0;`. -/
def NONE : Nat := 0

/-- Rust `const AUDIO = 1 << 0;`. -/
def AUDIO : Nat := 1 <<< 0

/-- Rust `const IMAGE = 1 << 1;`. -/
def IMAGE : Nat := 1 <<< 1

/-- Rust `const TEXT = 1 << 2;`. -/
def TEXT : Nat := 1 <<< 2

/-- Rust `const VIDEO = 1 << 3;`. -/
def VIDEO : Nat := 1 <<< 3

/-- Rust `const OTHER = 1 << 4;`. -/
def OTHER : Nat := 1 <<< 4

/-- Rust `const ALL`, the OR of the bits of the five flags. -/
def ALL : Nat := AUDIO ||| IMAGE ||| TEXT ||| VIDEO ||| OTHER

/-- A bit pattern is a valid `Modality` value when it has no bits
outside `ALL` (this is the invariant `bitflags!` maintains for values
built from the named constants and their combinations). -/
def Valid (s : Nat) : Prop := s &&& ALL = s

instance : DecidablePred Valid := fun _ => inferInstanceAs (Decidable (_ = _))

/-- The subset test of the bitflags crate, `self.bits() & other.bits() == other.bits()`.
This is also exactly the body of the dunder contains method of PyModality
(lib.rs lines 130-132). -/
def contains (s q : Nat) : Bool := (s &&& q) == q

/-- Rust `Modality::to_names` (lib.rs lines 35-53): push each lowercase name,
in declaration order, iff the set contains that flag. -/
def to_names (s : Nat) : List String :=
  (if contains s AUDIO then ["audio"] else [])
  ++ (if contains s IMAGE then ["image"] else [])
  ++ (if contains s TEXT then ["text"] else [])
  ++ (if contains s VIDEO then ["video"] else [])
  ++ (if contains s OTHER then ["other"] else [])

/-- The `match *name { ... }` arm table inside `Modality::from_names`
(lib.rs lines 58-65): the flag for a recognized name, `none` otherwise. -/
def flagOfName (name : String) : Option Nat :=
  if name = "audio" then some AUDIO
  else if name = "image" then some IMAGE
  else if name = "text" then some TEXT
  else if name = "video" then some VIDEO
  else if name = "other" then some OTHER
  else none

/-- The `for name in names { bits |= ... }` loop of `Modality::from_names`,
with the accumulator `bits` made explicit; the Rust `return Err(...)`
inside the match becomes the error branch. -/
def from_names_loop : List String → Nat → Except String Nat
  | [], bits => Except.ok bits
  | name :: rest, bits =>
    match flagOfName name with
    | some f => from_names_loop rest (bits ||| f)
    | none => Except.error ("Invalid modality name: " ++ name)

/-- Rust `Modality::from_names` (lib.rs lines 55-68): start from NONE and OR
in the flag for each name, failing on the first unrecognized one. -/
def from_names (names : List String) : Except String Nat :=
  from_names_loop names NONE

/-- The `from_bits_truncate` operation of the bitflags crate: keep only the
defined bits. -/
def from_bits_truncate (bits : Nat) : Nat := bits &&& ALL

/-- Rust `PyModality::__or__` (lib.rs lines 118-122). -/
def union (a b : Nat) : Nat := a ||| b

/-- Rust `PyModality::__and__` (lib.rs lines 124-128). -/
def intersect (a b : Nat) : Nat := a &&& b

/-- Rust `PyModality::names` (lib.rs lines 134-137): truncate to the defined
bits, then `to_names`. -/
def names (bits : Nat) : List String := to_names (from_bits_truncate bits)

/-- Rust `PyModality::__str__` (lib.rs lines 139-146): join the names with
`" | "`, rendering the empty set as `"none"`. -/
def str (bits : Nat) : String :=
  let joined := String.intercalate " | " (names bits)
  if joined.isEmpty then "none" else joined

end Modality

/-- Validity is exactly "fits in the five defined bits": `s &&& ALL = s ↔ s < 32`. -/
theorem valid_iff_lt (s : Nat) : Modality.Valid s ↔ s < 32 := by
  have h31 : Modality.ALL = 2 ^ 5 - 1 := by decide
  unfold Modality.Valid
  rw [h31, Nat.and_pow_two_sub_one_eq_mod]
  have h32 : (2 : Nat) ^ 5 = 32 := by norm_num
  rw [h32]
  omega

/-- Exhaustive check of the round trip over the 32 valid bit patterns. -/
theorem roundtrip_ball : ∀ s < 32, Modality.from_names ( Modality.to_names s) = Except.ok s := by
  decide

/-- C1: for every valid ModalitySet `s` (bits a subset of ALL),
`from_names (to_names s)` succeeds and returns exactly `s`. -/
theorem C1_round_trip (s : Nat) (h : Modality.Valid s) :
    Modality.from_names ( Modality.to_names s) = Except.ok s :=
  roundtrip_ball s ((valid_iff_lt s).mp h)

/-- Witness for C1 at the concrete set `AUDIO ||| TEXT` (= 5). -/
theorem C1_round_trip_witness :
    Modality.Valid 5 ∧ Modality.from_names ( Modality.to_names 5) = Except.ok 5 :=
  ⟨by decide, C1_round_trip 5 (by decide)⟩

/-- C6: the named constants have exactly the values AUDIO = 1, IMAGE = 2,
TEXT = 4, VIDEO = 8, OTHER = 16 (distinct powers of two, consecutive from
bit 0), NONE = 0, and ALL is the bitwise OR of the five flags, i.e. 31. -/
theorem C6_constant_values :
    Modality.AUDIO = 1 ∧ Modality.IMAGE = 2 ∧ Modality.TEXT = 4 ∧
    Modality.VIDEO = 8 ∧ Modality.OTHER = 16 ∧
    Modality.AUDIO = 2 ^ 0 ∧ Modality.IMAGE = 2 ^ 1 ∧ Modality.TEXT = 2 ^ 2 ∧
    Modality.VIDEO = 2 ^ 3 ∧ Modality.OTHER = 2 ^ 4 ∧
    Modality.NONE = 0 ∧ Modality.ALL = 31 ∧
    Modality.ALL =
      ( Modality.AUDIO ||| Modality.IMAGE ||| Modality.TEXT |||
        Modality.VIDEO ||| Modality.OTHER) := by
  decide

/-- A name is recognized by the parse table exactly when it is one of the
five lowercase flag names (case-sensitive). -/
theorem flagOfName_isSome_iff (n : String) :
    ( Modality.flagOfName n).isSome = true ↔
      n ∈ ["audio", "image", "text", "video", "other"] := by
  unfold Modality.flagOfName
  split_ifs <;> simp_all

/-- Every flag produced by the parse table is a valid bit pattern. -/
theorem flagOfName_valid (n : String) (f : Nat) (h : Modality.flagOfName n = some f) :
    Modality.Valid f := by
  unfold Modality.flagOfName at h
  split_ifs at h <;>
    first
    | exact Option.noConfusion h
    | (rw [Option.some_inj] at h; rw [← h]; decide)

/-- If the first unrecognized name in the list is `bad`, the parsing loop
fails with the error message naming `bad`, whatever the accumulator is. -/
theorem from_names_loop_error_of_find (l : List String) :
    ∀ (bits : Nat) (bad : String),
      l.find? (fun n => ( Modality.flagOfName n).isNone) = some bad →
      Modality.from_names_loop l bits =
        Except.error ("Invalid modality name: " ++ bad) := by
  induction l with
  | nil => intro bits bad h; simp at h
  | cons x xs ih =>
    intro bits bad h
    cases hfx : Modality.flagOfName x with
    | none =>
      have hbad : bad = x := by
        simp [List.find?_cons, hfx] at h
        exact h.symm
      subst hbad
      simp [Modality.from_names_loop, hfx]
    | some f =>
      have h2 : xs.find? (fun n => ( Modality.flagOfName n).isNone) = some bad := by
        simpa [List.find?_cons, hfx] using h
      simp only [Modality.from_names_loop, hfx]
      exact ih (bits ||| f) bad h2

/-- If every name in the list is recognized, the parsing loop succeeds and
returns the left fold of bitwise OR over the corresponding flags. -/
theorem from_names_loop_ok_of_all (l : List String) :
    ∀ bits : Nat,
      (∀ n ∈ l, ( Modality.flagOfName n).isSome = true) →
      Modality.from_names_loop l bits =
        Except.ok (l.foldl (fun acc n => acc ||| ( Modality.flagOfName n).getD 0) bits) := by
  induction l with
  | nil => intro bits _; simp [Modality.from_names_loop]
  | cons x xs ih =>
    intro bits hall
    have hx : ( Modality.flagOfName x).isSome = true := hall x (by simp)
    cases hfx : Modality.flagOfName x with
    | none => rw [hfx] at hx; simp at hx
    | some f =>
      simp only [Modality.from_names_loop, hfx, List.foldl_cons, hfx, Option.getD_some]
      exact ih (bits ||| f) (fun n hn => hall n (by simp [hn]))

/-- C2: `from_names` on the empty list yields NONE; a name is recognized
iff it is one of the five lowercase flag names (case-sensitive, so e.g.
"Audio" fails); the first unrecognized entry (in input order) causes an
immediate error carrying that name and no partial result; an all-valid
list yields the OR-fold of the flags starting from NONE; an immediate
duplicate name does not change the result (OR is idempotent). -/
theorem C2_from_names_behavior :
    Modality.from_names [] = Except.ok Modality.NONE ∧
    (∀ n, ( Modality.flagOfName n).isSome = true ↔
      n ∈ ["audio", "image", "text", "video", "other"]) ∧
    (∀ l bad, l.find? (fun n => ( Modality.flagOfName n).isNone) = some bad →
      Modality.from_names l = Except.error ("Invalid modality name: " ++ bad)) ∧
    (∀ l, (∀ n ∈ l, ( Modality.flagOfName n).isSome = true) →
      Modality.from_names l =
        Except.ok (l.foldl (fun acc n => acc ||| ( Modality.flagOfName n).getD 0)
          Modality.NONE)) ∧
    (∀ x xs, Modality.from_names (x :: x :: xs) = Modality.from_names (x :: xs)) ∧
    Modality.from_names ["Audio"] = Except.error ("Invalid modality name: " ++ "Audio") := by
  refine ⟨rfl, flagOfName_isSome_iff, ?_, ?_, ?_, by decide⟩
  · intro l bad h
    exact from_names_loop_error_of_find l Modality.NONE bad h
  · intro l h
    exact from_names_loop_ok_of_all l Modality.NONE h
  · intro x xs
    unfold Modality.from_names
    cases hfx : Modality.flagOfName x with
    | none => simp [Modality.from_names_loop, hfx]
    | some f =>
      simp only [Modality.from_names_loop, hfx]
      rw [Nat.or_assoc, Nat.or_self]

/-- Witness for C2 on the concrete input `["bogus"]`. -/
theorem C2_from_names_behavior_witness :
    ["bogus"].find? (fun n => ( Modality.flagOfName n).isNone) = some "bogus" ∧
    Modality.from_names ["bogus"] = Except.error ("Invalid modality name: " ++ "bogus") :=
  ⟨by decide, C2_from_names_behavior.2.2.1 ["bogus"] "bogus" (by decide)⟩

/-- The flag/name table in declaration order, as it appears in
`to_names` and the `from_names` match arms. -/
def flagTable : List (Nat × String) :=
  [( Modality.AUDIO, "audio"), ( Modality.IMAGE, "image"), ( Modality.TEXT, "text"),
   ( Modality.VIDEO, "video"), ( Modality.OTHER, "other")]

/-- Exhaustive check: over the valid bit patterns, `to_names` is the
declaration-order filter of the flag table by containment. -/
theorem to_names_filter_ball :
    ∀ s < 32, Modality.to_names s =
      (flagTable.filter (fun p => Modality.contains s p.1)).map Prod.snd := by
  decide

/-- Exhaustive check: over the valid bit patterns, `to_names` is empty
exactly for the empty set. -/
theorem to_names_nil_iff_ball :
    ∀ s < 32, ( Modality.to_names s = [] ↔ s = Modality.NONE) := by
  decide

/-- C3: on every valid set, `to_names` lists, in the fixed declaration
order (audio, image, text, video, other), the lowercase name of each flag
the set contains; the result is empty iff the set is NONE;
`to_names ALL` is the full five-name list in that exact order; and the
order depends only on the value: `from_names ["video", "audio"]` succeeds
and `to_names` of the result is `["audio", "video"]`. -/
theorem C3_to_names_order :
    (∀ s, Modality.Valid s →
      Modality.to_names s =
        (flagTable.filter (fun p => Modality.contains s p.1)).map Prod.snd) ∧
    (∀ s, Modality.Valid s → ( Modality.to_names s = [] ↔ s = Modality.NONE)) ∧
    Modality.to_names Modality.NONE = [] ∧
    Modality.to_names Modality.ALL = ["audio", "image", "text", "video", "other"] ∧
    Modality.from_names ["video", "audio"] =
      Except.ok ( Modality.VIDEO ||| Modality.AUDIO) ∧
    Modality.to_names ( Modality.VIDEO ||| Modality.AUDIO) = ["audio", "video"] := by
  refine ⟨?_, ?_, by decide, by decide, by decide, by decide⟩
  · intro s h
    exact to_names_filter_ball s ((valid_iff_lt s).mp h)
  · intro s h
    exact to_names_nil_iff_ball s ((valid_iff_lt s).mp h)

/-- Witness for C3 at the concrete set `VIDEO ||| AUDIO` (= 9). -/
theorem C3_to_names_order_witness :
    Modality.Valid 9 ∧
    Modality.to_names 9 =
      (flagTable.filter (fun p => Modality.contains 9 p.1)).map Prod.snd :=
  ⟨by decide, C3_to_names_order.1 9 (by decide)⟩

/-- C4: `contains` is the subset test `(set &&& query) == query`: it holds
iff every bit of the query is a bit of the set; hence `contains x NONE`
and `contains x x` always hold, and a union contains both operands. -/
theorem C4_contains_subset :
    (∀ s q, Modality.contains s q = true ↔
      ∀ i, q.testBit i = true → s.testBit i = true) ∧
    (∀ x, Modality.contains x Modality.NONE = true) ∧
    (∀ x, Modality.contains x x = true) ∧
    (∀ a b, Modality.contains ( Modality.union a b) a = true ∧
            Modality.contains ( Modality.union a b) b = true) := by
  refine ⟨?_, ?_, ?_, ?_⟩
  · intro s q
    simp only [Modality.contains, beq_iff_eq]
    constructor
    · intro h i hq
      have h2 := congrArg (fun n => Nat.testBit n i) h
      simp [Nat.testBit_and, hq] at h2
      exact h2
    · intro h
      apply Nat.eq_of_testBit_eq
      intro i
      simp [Nat.testBit_and]
      intro hq
      exact h i hq
  · intro x
    simp [Modality.contains, Modality.NONE]
  · intro x
    simp [Modality.contains]
  · intro a b
    constructor <;>
    · simp only [Modality.contains, Modality.union, beq_iff_eq]
      apply Nat.eq_of_testBit_eq
      intro i
      simp [Nat.testBit_and, Nat.testBit_or]
      tauto

/-- Witness for C4: instantiating the subset characterization at
`s = 5`, `q = 4`, bit `i = 2`. -/
theorem C4_contains_subset_witness :
    Nat.testBit 4 2 = true ∧ Nat.testBit 5 2 = true :=
  ⟨by decide, (C4_contains_subset.1 5 4).mp (by decide) 2 (by decide)⟩

/-- C5: union and intersect are commutative, associative and idempotent;
absorption `intersect a (union a b) = a` holds; and `intersect a b` is a
subset of each operand according to `contains`. -/
theorem C5_lattice_laws :
    (∀ a b, Modality.union a b = Modality.union b a) ∧
    (∀ a b c, Modality.union ( Modality.union a b) c =
      Modality.union a ( Modality.union b c)) ∧
    (∀ a, Modality.union a a = a) ∧
    (∀ a b, Modality.intersect a b = Modality.intersect b a) ∧
    (∀ a b c, Modality.intersect ( Modality.intersect a b) c =
      Modality.intersect a ( Modality.intersect b c)) ∧
    (∀ a, Modality.intersect a a = a) ∧
    (∀ a b, Modality.intersect a ( Modality.union a b) = a) ∧
    (∀ a b, Modality.contains a ( Modality.intersect a b) = true ∧
            Modality.contains b ( Modality.intersect a b) = true) := by
  refine ⟨?_, ?_, ?_, ?_, ?_, ?_, ?_, ?_⟩
  · exact fun a b => Nat.or_comm a b
  · exact fun a b c => Nat.or_assoc a b c
  · exact fun a => Nat.or_self a
  · exact fun a b => Nat.and_comm a b
  · exact fun a b c => Nat.and_assoc a b c
  · exact fun a => Nat.and_self a
  · intro a b
    simp only [Modality.intersect, Modality.union]
    apply Nat.eq_of_testBit_eq
    intro i
    cases hA : a.testBit i <;> cases hB : b.testBit i <;>
      simp [Nat.testBit_and, Nat.testBit_or, hA, hB]
  · intro a b
    constructor <;>
    · simp only [Modality.contains, Modality.intersect, beq_iff_eq]
      apply Nat.eq_of_testBit_eq
      intro i
      cases hA : a.testBit i <;> cases hB : b.testBit i <;>
        simp [Nat.testBit_and, hA, hB]

/-- The parsing loop preserves validity of the accumulator. -/
theorem from_names_loop_valid (l : List String) :
    ∀ bits : Nat, Modality.Valid bits →
      ∀ s, Modality.from_names_loop l bits = Except.ok s → Modality.Valid s := by
  induction l with
  | nil =>
    intro bits hb s h
    simp [Modality.from_names_loop] at h
    rwa [← h]
  | cons x xs ih =>
    intro bits hb s h
    cases hfx : Modality.flagOfName x with
    | none =>
      rw [Modality.from_names_loop, hfx] at h
      exact Except.noConfusion h
    | some f =>
      rw [Modality.from_names_loop, hfx] at h
      have hbf : Modality.Valid (bits ||| f) := by
        rw [valid_iff_lt] at hb ⊢
        have hf : f < 32 := (valid_iff_lt f).mp (flagOfName_valid x f hfx)
        have h32 : (32 : Nat) = 2 ^ 5 := by norm_num
        rw [h32] at hb hf ⊢
        exact Nat.or_lt_two_pow hb hf
      exact ih (bits ||| f) hbf s h

/-- C7: validity (no bits outside ALL) holds for every named constant, is
preserved by union and intersect on valid operands, and holds for every
set produced by a successful `from_names`. -/
theorem C7_validity_invariant :
    Modality.Valid Modality.NONE ∧ Modality.Valid Modality.AUDIO ∧
    Modality.Valid Modality.IMAGE ∧ Modality.Valid Modality.TEXT ∧
    Modality.Valid Modality.VIDEO ∧ Modality.Valid Modality.OTHER ∧
    Modality.Valid Modality.ALL ∧
    (∀ a b, Modality.Valid a → Modality.Valid b →
      Modality.Valid ( Modality.union a b) ∧ Modality.Valid ( Modality.intersect a b)) ∧
    (∀ l s, Modality.from_names l = Except.ok s → Modality.Valid s) := by
  refine ⟨by decide, by decide, by decide, by decide, by decide, by decide, by decide, ?_, ?_⟩
  · intro a b ha hb
    rw [valid_iff_lt] at ha hb
    constructor
    · rw [valid_iff_lt]
      have h32 : (32 : Nat) = 2 ^ 5 := by norm_num
      rw [h32] at ha hb ⊢
      exact Nat.or_lt_two_pow ha hb
    · rw [valid_iff_lt]
      calc Modality.intersect a b ≤ b := Nat.and_le_right
        _ < 32 := hb
  · intro l s h
    exact from_names_loop_valid l Modality.NONE (by decide) s h

/-- Witness for C7: union and intersect of the valid sets 5 and 24, and
the result of `from_names ["audio"]`. -/
theorem C7_validity_invariant_witness :
    Modality.Valid 5 ∧ Modality.Valid 24 ∧
    ( Modality.Valid ( Modality.union 5 24) ∧ Modality.Valid ( Modality.intersect 5 24)) ∧
    Modality.Valid 1 :=
  ⟨by decide, by decide, C7_validity_invariant.2.2.2.2.2.2.2.1 5 24 (by decide) (by decide),
    C7_validity_invariant.2.2.2.2.2.2.2.2 ["audio"] 1 (by decide)⟩

/-- Exhaustive check: the rendering is non-empty on every valid bit pattern. -/
theorem str_ne_empty_ball : ∀ s < 32, ¬ ( Modality.str s = "") := by
  decide

/-- C8: the rendering of NONE is the fixed literal "none", which is not a
flag name; the rendering of every valid value is non-empty; and with more
than one flag present the names are joined by the separator " | ", e.g.
`str (union AUDIO TEXT)` is `"audio" ++ " | " ++ "text"`. -/
theorem C8_rendering :
    Modality.str Modality.NONE = "none" ∧
    "none" ∉ ["audio", "image", "text", "video", "other"] ∧
    (∀ s, Modality.Valid s → Modality.str s ≠ "") ∧
    Modality.str ( Modality.union Modality.AUDIO Modality.TEXT) =
      "audio" ++ " | " ++ "text" := by
  refine ⟨by decide, by decide, ?_, by decide⟩
  intro s h
  exact str_ne_empty_ball s ((valid_iff_lt s).mp h)

/-- Witness for C8 at the concrete valid set 3 (AUDIO ||| IMAGE). -/
theorem C8_rendering_witness :
    Modality.Valid 3 ∧ Modality.str 3 ≠ "" :=
  ⟨by decide, C8_rendering.2.2.1 3 (by decide)⟩

/-- Exhaustive check of the shape of `to_names` on valid bit patterns. -/
theorem to_names_shape_ball :
    ∀ s < 32,
      ( Modality.to_names s).Nodup ∧
      ( Modality.to_names s).length =
        ([ Modality.AUDIO, Modality.IMAGE, Modality.TEXT, Modality.VIDEO,
           Modality.OTHER].countP (fun f => Modality.contains s f)) ∧
      ( Modality.to_names s).length ≤ 5 ∧
      ∀ n ∈ Modality.to_names s, n ∈ ["audio", "image", "text", "video", "other"] := by
  decide

/-- C9: on every valid set, `to_names` has no duplicates, its length is
the number of defined single flags the set contains (hence at most 5),
and every returned string is one of the five recognized names. -/
theorem C9_to_names_shape (s : Nat) (h : Modality.Valid s) :
    ( Modality.to_names s).Nodup ∧
    ( Modality.to_names s).length =
      ([ Modality.AUDIO, Modality.IMAGE, Modality.TEXT, Modality.VIDEO,
         Modality.OTHER].countP (fun f => Modality.contains s f)) ∧
    ( Modality.to_names s).length ≤ 5 ∧
    ∀ n ∈ Modality.to_names s, n ∈ ["audio", "image", "text", "video", "other"] :=
  to_names_shape_ball s ((valid_iff_lt s).mp h)

/-- Witness for C9 at the full set ALL (= 31). -/
theorem C9_to_names_shape_witness :
    Modality.Valid 31 ∧ ( Modality.to_names 31).Nodup :=
  ⟨by decide, (C9_to_names_shape 31 (by decide)).1⟩

/-- C10: the rendering literal "none" for the empty set is not parseable:
`from_names ["none"]` fails with an error identifying "none", so the
display output of NONE does not round-trip through `from_names`. -/
theorem C10_none_literal_not_parseable :
    Modality.str Modality.NONE = "none" ∧
    Modality.from_names ["none"] = Except.error ("Invalid modality name: " ++ "none") ∧
    Modality.from_names [ Modality.str Modality.NONE] =
      Except.error "Invalid modality name: none" := by
  decide
